import Mathlib

set_option maxRecDepth 40000
set_option exponentiation.threshold 1200

/-!
Verification development for `keyword_generator.py`.

The script reads two credential environment variables, calls one of two
AI provider HTTP endpoints, normalizes the JSON-shaped response text,
extracts a `keywords` field and writes the result file.  Below is a
shallow embedding of that script: Python strings become `String`,
`json.loads` and `json.dump(..., ensure_ascii=False, indent=2)` are
embedded as an executable parser `loads` and serializer `dumpVal`, the
process environment is a function `String → Option String`, and the
HTTP layer is an oracle `HttpRequest → HttpResponse`.  Exceptions are
modelled with `Except PyError`.
-/

/-! ## Python string helpers -/

/-- Models Python `str.isspace` on a single character (the set of
characters removed by `str.strip()`): ASCII whitespace, the C0 field
separators, NEL, NBSP and the Unicode space characters. -/
def pyIsSpace (c : Char) : Bool :=
  c = ' ' || c = '\t' || c = '\n' || c = '\r' || c = '\x0b' || c = '\x0c' ||
  decide (0x1c ≤ c.toNat ∧ c.toNat ≤ 0x1f) || decide (c.toNat = 0x85) ||
  decide (c.toNat = 0xa0) || decide (c.toNat = 0x1680) ||
  decide (0x2000 ≤ c.toNat ∧ c.toNat ≤ 0x200a) ||
  decide (c.toNat = 0x2028) || decide (c.toNat = 0x2029) ||
  decide (c.toNat = 0x202f) || decide (c.toNat = 0x205f) || decide (c.toNat = 0x3000)

/-- Models Python `str.strip()`: removes leading and trailing whitespace. -/
def pyStrip (s : String) : String :=
  String.mk (((s.data.dropWhile pyIsSpace).reverse.dropWhile pyIsSpace).reverse)

/-- The Markdown JSON code-fence marker tested by
`ai_response_text.strip().startswith("```json")`. -/
def fenceMarker : String := "```json"

/-- Models Python `s.startswith("```json")`. -/
def startsWithFence (s : String) : Bool :=
  s.data.take 7 == fenceMarker.data

/-! ## JSON values

`JValue` is the result type of the embedded `json.loads`.  Objects are
built with Python `dict` semantics: duplicate keys are collapsed to one
entry at the position of the first occurrence carrying the last value
(`pyDict` below), so a parsed object never holds duplicate keys.
Numbers follow the `json` module scanner: an integer lexeme (no
fraction, no exponent) becomes the exact Python `int` it denotes
(`jint`); a lexeme with a fraction or exponent is parsed by Python with
`float(...)` and is kept here as its lexeme (`jfloat`).  The parsed
double itself is not represented; the one float property the program
observes — zero-ness under `if not keywords:` — is decided exactly from
the lexeme by `floatLexZero`, including underflow to `0.0`.  The
shortest-round-trip `repr` text Python uses when re-serializing a
non-zero float is not modelled, and no theorem asserts the rendered
text of a float. -/

inductive JValue where
  | jnull
  | jbool (b : Bool)
  | jint (n : Int)
  | jfloat (lexeme : List Char)
  | jstr (s : String)
  | jarr (xs : List JValue)
  | jobj (kvs : List (String × JValue))

/-! ## Embedded `json.loads`

A recursive-descent parser over `List Char` following the `json` module
scanner: whitespace is ` \t\n\r`; strings are strict (unescaped control
characters are rejected); numbers follow the `NUMBER_RE` regular
expression; any trailing non-whitespace input is an error.  Surrogate
`\uXXXX` escapes and the `NaN`/`Infinity` constants are not modelled
(the parser rejects them); no claim depends on them. -/

/-- JSON inter-token whitespace (`' '`, `'\t'`, `'\n'`, `'\r'`). -/
def jsonWs (c : Char) : Bool :=
  c = ' ' || c = '\t' || c = '\n' || c = '\r'

/-- Skip JSON whitespace. -/
def skipWs : List Char → List Char
  | [] => []
  | c :: cs => if jsonWs c then skipWs cs else c :: cs

/-- Value of one hexadecimal digit. -/
def hexVal (c : Char) : Option Nat :=
  if '0' ≤ c ∧ c ≤ '9' then some (c.toNat - '0'.toNat)
  else if 'a' ≤ c ∧ c ≤ 'f' then some (c.toNat - 'a'.toNat + 10)
  else if 'A' ≤ c ∧ c ≤ 'F' then some (c.toNat - 'A'.toNat + 10)
  else none

/-- Decode a one-character string escape (`\"  \\  \/  \b  \f  \n  \r  \t`). -/
def escDecode (e : Char) : Option Char :=
  if e = '\x22' then some '\x22'
  else if e = '\\' then some '\\'
  else if e = '/' then some '/'
  else if e = 'b' then some '\x08'
  else if e = 'f' then some '\x0c'
  else if e = 'n' then some '\n'
  else if e = 'r' then some '\r'
  else if e = 't' then some '\t'
  else none

/-- Parse the body of a string literal (after the opening quote) up to and
including the closing quote; returns the decoded characters and the rest
of the input. -/
def parseStrBody : List Char → Option (List Char × List Char)
  | [] => none
  | c :: cs =>
    if c = '\x22' then some ([], cs)
    else if c = '\\' then
      match cs with
      | [] => none
      | e :: cs2 =>
        if e = 'u' then
          match cs2 with
          | h1 :: h2 :: h3 :: h4 :: cs3 =>
            match hexVal h1, hexVal h2, hexVal h3, hexVal h4 with
            | some a, some b, some c2, some d =>
              let n := ((a * 16 + b) * 16 + c2) * 16 + d
              if decide (0xd800 ≤ n ∧ n < 0xe000) then none
              else
                match parseStrBody cs3 with
                | some (out, rest) => some (Char.ofNat n :: out, rest)
                | none => none
            | _, _, _, _ => none
          | _ => none
        else
          match escDecode e with
          | some d =>
            match parseStrBody cs2 with
            | some (out, rest) => some (d :: out, rest)
            | none => none
          | none => none
    else if decide (c.toNat < 0x20) then none
    else
      match parseStrBody cs with
      | some (out, rest) => some (c :: out, rest)
      | none => none

/-- Match a literal word (used for `true` / `false` / `null`). -/
def dropLit : List Char → List Char → Option (List Char)
  | [], l => some l
  | p :: ps, c :: cs => if c = p then dropLit ps cs else none
  | _ :: _, [] => none

/-- Match a number lexeme following the `json` module regular expression
`(-?(?:0|[1-9]\d*))(\.\d+)?([eE][-+]?\d+)?`; like the regex, a fraction
or exponent without digits is left unconsumed rather than failing. -/
def parseNumber (l : List Char) : Option (List Char × List Char) :=
  let sl := match l with
    | '-' :: r => (['-'], r)
    | _ => (([] : List Char), l)
  match sl.2 with
  | [] => none
  | c :: r =>
    if ¬ c.isDigit then none
    else
      let ipr : List Char × List Char :=
        if c = '0' then ([c], r)
        else (c :: r.takeWhile Char.isDigit, r.dropWhile Char.isDigit)
      let fpr : List Char × List Char :=
        match ipr.2 with
        | '.' :: rr =>
          let ds := rr.takeWhile Char.isDigit
          if ds.isEmpty then ([], ipr.2) else ('.' :: ds, rr.dropWhile Char.isDigit)
        | _ => ([], ipr.2)
      let epr : List Char × List Char :=
        match fpr.2 with
        | e :: rr =>
          if e = 'e' ∨ e = 'E' then
            let s2 : List Char × List Char :=
              match rr with
              | '+' :: q => (['+'], q)
              | '-' :: q => (['-'], q)
              | _ => ([], rr)
            let ds := s2.2.takeWhile Char.isDigit
            if ds.isEmpty then ([], fpr.2)
            else (e :: s2.1 ++ ds, s2.2.dropWhile Char.isDigit)
          else ([], fpr.2)
        | [] => ([], fpr.2)
      some (sl.1 ++ ipr.1 ++ fpr.1 ++ epr.1, epr.2)

/-- Decimal digit run to a natural number. -/
def digitsToNat (ds : List Char) : Nat :=
  ds.foldl (fun a c => a * 10 + (c.toNat - '0'.toNat)) 0

/-- Value of an integer lexeme, as Python `int(lexeme)` (exact,
arbitrary precision; `-0` denotes `0`). -/
def intOfLex (lex : List Char) : Int :=
  match lex with
  | '-' :: ds => -(Int.ofNat (digitsToNat ds))
  | ds => Int.ofNat (digitsToNat ds)

/-- Does `float(lexeme)` evaluate to `0.0` in Python?  The lexeme
denotes the exact rational `±M * 10^e` (`M` the mantissa digits, `e`
the exponent adjusted by the fraction length).  CPython string-to-float
conversion is correctly rounded with round-half-even, so the result is
`±0.0` exactly when `M = 0` or `M * 10^e ≤ 2^(-1075)` (half the
smallest subnormal; the tie rounds to the even significand `0`).  That
inequality is decided with exact integer arithmetic; the first disjunct
below is a coarse bound (`value < 10^(e + d) ≤ 10^(-324) < 2^(-1075)`)
that keeps the powers small when the exponent is huge. -/
def floatLexZero (lex : List Char) : Bool :=
  let l1 := match lex with | '-' :: r => r | _ => lex
  let ip := l1.takeWhile Char.isDigit
  let r1 := l1.dropWhile Char.isDigit
  let fp : List Char := match r1 with
    | '.' :: rr => rr.takeWhile Char.isDigit
    | _ => []
  let r2 : List Char := match r1 with
    | '.' :: rr => rr.dropWhile Char.isDigit
    | _ => r1
  let eparts : Bool × List Char := match r2 with
    | e :: rr =>
      if e = 'e' ∨ e = 'E' then
        match rr with
        | '+' :: q => (false, q)
        | '-' :: q => (true, q)
        | q => (false, q)
      else (false, [])
    | [] => (false, [])
  let M := digitsToNat (ip ++ fp)
  let X : Int := if eparts.1 then -(Int.ofNat (digitsToNat eparts.2))
                 else Int.ofNat (digitsToNat eparts.2)
  let e : Int := X - Int.ofNat fp.length
  let d : Int := Int.ofNat (ip ++ fp).length
  M == 0 || decide (e + d ≤ -324) ||
    (decide (e < 0) && decide (M * 2 ^ 1075 ≤ 10 ^ e.natAbs))

/-- Insert one key/value pair into an object under construction, the
way assigning into a Python `dict` does: an existing key keeps its
position and takes the new value, a new key is appended. -/
def dictInsert (kvs : List (String × JValue)) (k : String) (v : JValue) :
    List (String × JValue) :=
  if kvs.any (fun p => p.1 == k) then
    kvs.map (fun p => if p.1 = k then (k, v) else p)
  else kvs ++ [(k, v)]

/-- Build a Python `dict` from the parsed member list (duplicate keys:
first position, last value — as `dict(pairs)` does). -/
def pyDict (kvs : List (String × JValue)) : List (String × JValue) :=
  kvs.foldl (fun acc kv => dictInsert acc kv.1 kv.2) []

mutual

/-- Parse one JSON value (fuelled recursion). -/
def parseValue : Nat → List Char → Option (JValue × List Char)
  | 0, _ => none
  | _ + 1, [] => none
  | fuel + 1, c :: cs =>
    if c = '\x7b' then
      match skipWs cs with
      | '\x7d' :: r => some (.jobj [], r)
      | l1 =>
        match parseObjItems fuel l1 with
        | some (kvs, r) => some (.jobj (pyDict kvs), r)
        | none => none
    else if c = '[' then
      match skipWs cs with
      | ']' :: r => some (.jarr [], r)
      | l1 =>
        match parseArrItems fuel l1 with
        | some (xs, r) => some (.jarr xs, r)
        | none => none
    else if c = '\x22' then
      match parseStrBody cs with
      | some (out, rest) => some (.jstr (String.mk out), rest)
      | none => none
    else if c = 't' then
      match dropLit "rue".data cs with
      | some r => some (.jbool true, r)
      | none => none
    else if c = 'f' then
      match dropLit "alse".data cs with
      | some r => some (.jbool false, r)
      | none => none
    else if c = 'n' then
      match dropLit "ull".data cs with
      | some r => some (.jnull, r)
      | none => none
    else
      match parseNumber (c :: cs) with
      | some (lex, r) =>
        if lex.any (fun ch => ch == '.' || ch == 'e' || ch == 'E') then
          some (.jfloat lex, r)
        else
          some (.jint (intOfLex lex), r)
      | none => none

/-- Parse the items of a non-empty array (leading whitespace already
skipped), up to and including the closing bracket. -/
def parseArrItems : Nat → List Char → Option (List JValue × List Char)
  | 0, _ => none
  | fuel + 1, l =>
    match parseValue fuel l with
    | none => none
    | some (v, r) =>
      match skipWs r with
      | ',' :: r2 =>
        match parseArrItems fuel (skipWs r2) with
        | some (vs, r3) => some (v :: vs, r3)
        | none => none
      | ']' :: r2 => some ([v], r2)
      | _ => none

/-- Parse the members of a non-empty object (leading whitespace already
skipped), up to and including the closing brace. -/
def parseObjItems : Nat → List Char → Option (List (String × JValue) × List Char)
  | 0, _ => none
  | fuel + 1, l =>
    match l with
    | '\x22' :: cs =>
      match parseStrBody cs with
      | none => none
      | some (key, r1) =>
        match skipWs r1 with
        | ':' :: r2 =>
          match parseValue fuel (skipWs r2) with
          | none => none
          | some (v, r3) =>
            match skipWs r3 with
            | ',' :: r4 =>
              match parseObjItems fuel (skipWs r4) with
              | some (kvs, r5) => some ((String.mk key, v) :: kvs, r5)
              | none => none
            | '\x7d' :: r4 => some ([(String.mk key, v)], r4)
            | _ => none
        | _ => none
    | _ => none

end

/-- Embedded `json.loads`: parse a complete JSON document; `none` models
`json.JSONDecodeError`. -/
def loads (s : String) : Option JValue :=
  let l := skipWs s.data
  match parseValue (2 * l.length + 2) l with
  | some (v, r) => if (skipWs r).isEmpty then some v else none
  | none => none

/-! ## Embedded `json.dump(..., ensure_ascii=False, indent=2)` -/

/-- Lowercase hexadecimal digit. -/
def hexDigitChar (n : Nat) : Char :=
  if n < 10 then Char.ofNat ('0'.toNat + n) else Char.ofNat ('a'.toNat + (n - 10))

/-- Escape one character the way `json.dump` with `ensure_ascii=False`
does: only the backslash, the double quote and control characters are
escaped; everything else (in particular non-ASCII characters) is emitted
literally. -/
def escChar (c : Char) : List Char :=
  if c = '\\' then ['\\', '\\']
  else if c = '\x22' then ['\\', '\x22']
  else if c = '\x08' then ['\\', 'b']
  else if c = '\x0c' then ['\\', 'f']
  else if c = '\n' then ['\\', 'n']
  else if c = '\r' then ['\\', 'r']
  else if c = '\t' then ['\\', 't']
  else if decide (c.toNat < 0x20) then
    ['\\', 'u', '0', '0', hexDigitChar (c.toNat / 16), hexDigitChar (c.toNat % 16)]
  else [c]

/-- Escape every character of a string body. -/
def escChars : List Char → List Char
  | [] => []
  | c :: cs => escChar c ++ escChars cs

/-- Serialize a string literal. -/
def dumpStr (s : String) : List Char :=
  '\x22' :: (escChars s.data ++ ['\x22'])

/-- Indentation at nesting depth `d` for `indent=2`. -/
def indentChars (d : Nat) : List Char := List.replicate (2 * d) ' '

mutual

/-- Serialize a JSON value at nesting depth `d`, following
`json.dump(value, f, ensure_ascii=False, indent=2)`: empty containers
print as `[]` and `\x7b\x7d`, non-empty containers put each item on its
own line indented by `2 * (d+1)` spaces, keys are separated from values
by `: ` and items by `,`.  Integers print as Python `repr(int)` does.
A float prints here as its stored lexeme, whereas Python prints the
shortest-round-trip `repr` of the parsed double (`1e5` becomes
`100000.0`); that rendering is not modelled, and every theorem about
written file content is restricted to `floatFree` values. -/
def dumpVal (d : Nat) : JValue → List Char
  | .jnull => "null".data
  | .jbool true => "true".data
  | .jbool false => "false".data
  | .jint n => (toString n).data
  | .jfloat lex => lex
  | .jstr s => dumpStr s
  | .jarr [] => "[]".data
  | .jarr (x :: xs) =>
    '[' :: '\n' :: (indentChars (d + 1) ++ dumpVal (d + 1) x ++ dumpArrRest d xs
      ++ '\n' :: (indentChars d ++ [']']))
  | .jobj [] => "\x7b\x7d".data
  | .jobj ((k, v) :: kvs) =>
    '\x7b' :: '\n' :: (indentChars (d + 1) ++ dumpStr k ++ ':' :: ' ' :: dumpVal (d + 1) v
      ++ dumpObjRest d kvs ++ '\n' :: (indentChars d ++ ['\x7d']))

/-- Serialize the remaining items of an array. -/
def dumpArrRest (d : Nat) : List JValue → List Char
  | [] => []
  | x :: xs =>
    ',' :: '\n' :: (indentChars (d + 1) ++ dumpVal (d + 1) x ++ dumpArrRest d xs)

/-- Serialize the remaining members of an object. -/
def dumpObjRest (d : Nat) : List (String × JValue) → List Char
  | [] => []
  | (k, v) :: kvs =>
    ',' :: '\n' :: (indentChars (d + 1) ++ dumpStr k ++ ':' :: ' ' :: dumpVal (d + 1) v
      ++ dumpObjRest d kvs)

end

/-- Content written by `json.dump(\x7b"keywords": v\x7d, f,
ensure_ascii=False, indent=2)` to the output file. -/
def writeFileContent (v : JValue) : String :=
  String.mk (dumpVal 0 (.jobj [("keywords", v)]))

/-! ## Dict access and Python truthiness -/

/-- Lookup in the key/value list of a parsed object (Python `dict`
access; parsed objects are deduplicated by `pyDict`, so the binding is
unique — the fold keeps the last one, which also matches `dict` on any
list with duplicates). -/
def lookupLast (kvs : List (String × JValue)) (k : String) : Option JValue :=
  kvs.foldl (fun acc kv => if kv.1 = k then some kv.2 else acc) none

/-- Python `j[k]` for the provider envelopes: `none` models the
`KeyError`/`TypeError` raised on a missing key or non-dict. -/
def jfield (j : JValue) (k : String) : Option JValue :=
  match j with
  | .jobj kvs => lookupLast kvs k
  | _ => none

/-- Python `j[i]` on a parsed value: `none` models the
`IndexError`/`TypeError` raised on a short array or non-list. -/
def jindex (j : JValue) (i : Nat) : Option JValue :=
  match j with
  | .jarr xs => xs[i]?
  | _ => none

/-- Python truthiness (`if not keywords:`) of a parsed JSON value:
`None`, `False`, zero, and empty strings/lists/dicts are falsy.  An
integer is falsy iff its exact value is `0`; a float is falsy iff
`float(lexeme)` is `±0.0`, decided exactly by `floatLexZero`
(mantissa all zero, or underflow below half the smallest subnormal). -/
def jfalsy : JValue → Bool
  | .jnull => true
  | .jbool b => !b
  | .jint n => n == 0
  | .jfloat lex => floatLexZero lex
  | .jstr s => s.isEmpty
  | .jarr xs => xs.isEmpty
  | .jobj kvs => kvs.isEmpty

mutual

/-- No float occurs anywhere in the value.  On float-free values the
serializer `dumpVal` is a faithful model of `json.dump`; the written
file content asserted by the theorems below is restricted to them. -/
def floatFree : JValue → Bool
  | .jfloat _ => false
  | .jarr xs => floatFreeList xs
  | .jobj kvs => floatFreeKvs kvs
  | _ => true

/-- `floatFree` over the items of an array. -/
def floatFreeList : List JValue → Bool
  | [] => true
  | x :: xs => floatFree x && floatFreeList xs

/-- `floatFree` over the members of an object. -/
def floatFreeKvs : List (String × JValue) → Bool
  | [] => true
  | kv :: kvs => floatFree kv.2 && floatFreeKvs kvs

end

/-! ## Errors

The script raises `ValueError` when no credential is configured
(`ConfigurationError` in the spec) and when validation fails
(`ValidationError`); `requests.raise_for_status` raises `HTTPError`;
`json.loads` raises `JSONDecodeError` (`ParseError`); extracting the
provider envelope or calling `.get` on a non-dict raises
`KeyError`/`IndexError`/`TypeError`/`AttributeError`.  The two
`ValueError` messages are taken verbatim from the source; the message
text of the library-raised errors is modelled representatively (its
exact wording is produced inside `requests`/`json` and the claims do
not depend on it). -/

inductive PyError where
  | configurationError
  | httpError (status : Nat)
  | parseError
  | validationError
  | envelopeError
  | attributeError
deriving DecidableEq

/-- Python `str(e)` for each modelled error. -/
def pyErrMsg : PyError → String
  | .configurationError => "API 키가 설정되지 않았습니다. GitHub Secrets를 확인하세요."
  | .httpError s => "HTTP error " ++ toString s
  | .parseError => "Expecting value"
  | .validationError => "AI가 유효한 키워드를 생성하지 못했습니다."
  | .envelopeError => "provider envelope field missing"
  | .attributeError => "object has no attribute get"

/-- The single error entry written on the failure path:
`f"키워드 생성 중 오류 발생: \x7be\x7d"`. -/
def errLine (e : PyError) : String :=
  "키워드 생성 중 오류 발생: " ++ pyErrMsg e

/-- File content written on the failure path. -/
def errorFileContent (e : PyError) : String :=
  writeFileContent (.jarr [.jstr (errLine e)])

/-! ## Configuration (the CONFIG dict of the script) -/

/-- `CONFIG["OPENAI_API_KEY_SECRET"]`. -/
def OPENAI_API_KEY_SECRET : String := "OPENAI_API_KEY"

/-- `CONFIG["GEMINI_API_KEY_SECRET"]`. -/
def GEMINI_API_KEY_SECRET : String := "GEMINI_API_KEY"

/-- `CONFIG["SEED_KEYWORDS"]`. -/
def SEED_KEYWORDS : List String :=
  ["IT 트렌드", "AI 신기술", "헬스케어", "MZ세대 유행", "국내여행 추천",
   "재테크 방법", "최신 영화 리뷰"]

/-- `CONFIG["KEYWORD_COUNT"]`. -/
def KEYWORD_COUNT : Nat := 30

/-- `CONFIG["OUTPUT_FILENAME"]`. -/
def OUTPUT_FILENAME : String := "keywords.json"

/-- The prompt f-string of `main` with the configuration and the current
date substituted (`today` stands for `datetime.now().strftime(...)`).
The prompt is an opaque payload: no claim depends on its content. -/
def buildPrompt (today : String) : String :=
  "\n        " ++ today ++
  " 기준, 대한민국 최신 트렌드를 종합적으로 반영하여 블로그 글감으로 활용할 \x27롱테일 키워드\x27를 " ++
  toString KEYWORD_COUNT ++
  "개 생성해줘.\n\n        다음 씨앗 키워드들을 참고하되, 여기에 없는 완전히 새로운 분야의 키워드도 적극적으로 포함시켜줘.\n        씨앗 키워드: " ++
  String.intercalate ", " SEED_KEYWORDS ++
  "\n\n        [규칙]\n        - IT, 건강, 경제, 여행, 문화, 라이프스타일 등 다양한 주제를 포함해야 해.\n        - 각 키워드는 \x272025년 다이어리 추천\x27, \x27겨울철 실내 데이트 코스\x27 처럼 구체적인 검색어 형태여야 해.\n        - 결과는 반드시 \x7b \x27keywords\x27: [\x27키워드1\x27, \x27키워드2\x27, ...] \x7d 형식의 JSON 객체로만 응답해야 해. 다른 설명은 절대 추가하지 마.\n    "

/-! ## HTTP layer

One outbound `requests.post` is modelled as a record of everything the
script puts on the wire; the network itself is an oracle mapping the
request to a response (status code and body text). -/

structure HttpRequest where
  url : String
  bearer : Option String
  payload : JValue

structure HttpResponse where
  status : Nat
  bodyText : String

/-- The Gemini endpoint (the key is appended as a query parameter). -/
def geminiEndpointBase : String :=
  "https://generativelanguage.googleapis.com/v1beta/models/gemini-1.5-flash-latest:generateContent"

/-- The OpenAI chat-completions endpoint. -/
def openaiEndpoint : String := "https://api.openai.com/v1/chat/completions"

/-- The Gemini request body built in `call_ai`. -/
def geminiPayload (prompt : String) : JValue :=
  .jobj [("contents", .jarr [.jobj [("parts", .jarr [.jobj [("text", .jstr prompt)]])]]),
         ("generationConfig", .jobj [("response_mime_type", .jstr "application/json")])]

/-- The OpenAI request body built in `call_ai`. -/
def openaiPayload (prompt : String) : JValue :=
  .jobj [("model", .jstr "gpt-4o-mini"),
         ("messages", .jarr [.jobj [("role", .jstr "user"), ("content", .jstr prompt)]]),
         ("response_format", .jobj [("type", .jstr "json_object")])]

/-- Python truthiness of `os.getenv(...)`: `None` and the empty string
are falsy. -/
def optTruthy : Option String → Bool
  | none => false
  | some s => !s.isEmpty

/-- `json_response["candidates"][0]["content"]["parts"][0]["text"]`. -/
def geminiExtract (j : JValue) : Option String :=
  match ((((jfield j "candidates").bind (jindex · 0)).bind
      (jfield · "content")).bind (jfield · "parts")).bind (jindex · 0) with
  | some p =>
    match jfield p "text" with
    | some (.jstr t) => some t
    | _ => none
  | none => none

/-- `json_response["choices"][0]["message"]["content"]`. -/
def openaiExtract (j : JValue) : Option String :=
  match ((jfield j "choices").bind (jindex · 0)).bind (jfield · "message") with
  | some m =>
    match jfield m "content" with
    | some (.jstr t) => some t
    | _ => none
  | none => none

/-- Embedding of `call_ai(prompt)`: reads the two credentials from the
environment, issues at most one POST through the oracle and returns the
extracted response text (or the raised error), together with the list
of requests actually issued.  `raise_for_status` raises `HTTPError`
exactly for 4xx/5xx statuses. -/
def call_ai (env : String → Option String) (http : HttpRequest → HttpResponse)
    (prompt : String) : Except PyError String × List HttpRequest :=
  let openai_key := env OPENAI_API_KEY_SECRET
  let gemini_key := env GEMINI_API_KEY_SECRET
  if optTruthy gemini_key then
    let req : HttpRequest :=
      ⟨geminiEndpointBase ++ "?key=" ++ gemini_key.getD "", none, geminiPayload prompt⟩
    let resp := http req
    let res : Except PyError String :=
      if 400 ≤ resp.status ∧ resp.status < 600 then .error (.httpError resp.status)
      else
        match loads resp.bodyText with
        | none => .error .parseError
        | some j =>
          match geminiExtract j with
          | some t => .ok t
          | none => .error .envelopeError
    (res, [req])
  else if optTruthy openai_key then
    let req : HttpRequest :=
      ⟨openaiEndpoint, some (openai_key.getD ""), openaiPayload prompt⟩
    let resp := http req
    let res : Except PyError String :=
      if 400 ≤ resp.status ∧ resp.status < 600 then .error (.httpError resp.status)
      else
        match loads resp.bodyText with
        | none => .error .parseError
        | some j =>
          match openaiExtract j with
          | some t => .ok t
          | none => .error .envelopeError
    (res, [req])
  else
    (.error .configurationError, [])

/-! ## Response normalization and the main flow -/

/-- The fence-stripping step of `main`:
`if ai_response_text.strip().startswith("```json"):
   ai_response_text = ai_response_text.strip()[7:-3].strip()`.
When the trimmed text is not fenced the original (untrimmed) text is
kept. -/
def normalizeResponse (t : String) : String :=
  let s := pyStrip t
  if startsWithFence s then pyStrip ((s.drop 7).dropRight 3) else t

/-- The fence-stripping transformation as the specification words it:
exactly the first 7 and the last 3 characters of the trimmed text are
removed, with no further trimming.  Kept separate from
`normalizeResponse` (which follows the source) so the two can be
compared. -/
def exactFenceStrip (t : String) : String :=
  let s := pyStrip t
  if startsWithFence s then (s.drop 7).dropRight 3 else t

/-- The response-processing half of `main` (everything inside the `try`
block after `call_ai` returns text): normalize, `json.loads`,
`result.get("keywords", [])`, validate, and produce the file content.
Returns the content written to the output file together with the
outcome of the run. -/
def processResponse (text : String) : String × Except PyError Unit :=
  match loads (normalizeResponse text) with
  | none => (errorFileContent .parseError, .error .parseError)
  | some result =>
    match result with
    | .jobj kvs =>
      let keywords := (lookupLast kvs "keywords").getD (.jarr [])
      if jfalsy keywords then
        (errorFileContent .validationError, .error .validationError)
      else
        (writeFileContent keywords, .ok ())
    | _ => (errorFileContent .attributeError, .error .attributeError)

/-- Observable result of one run of `main`: the requests issued, the
content left in `keywords.json`, and whether the run re-raised an
error (`.error e` models the `raise e` at the end of the `except`
block, i.e. a failing process). -/
structure RunResult where
  requests : List HttpRequest
  written : String
  outcome : Except PyError Unit

/-- Embedding of `main()`: build the prompt, call the provider, process
the response; any raised error is caught, written into the output file
as a one-element `keywords` array and re-raised. -/
def pymain (today : String) (env : String → Option String)
    (http : HttpRequest → HttpResponse) : RunResult :=
  match call_ai env http (buildPrompt today) with
  | (.error e, reqs) => ⟨reqs, errorFileContent e, .error e⟩
  | (.ok text, reqs) => ⟨reqs, (processResponse text).1, (processResponse text).2⟩

/-- Does a request target the Gemini endpoint? -/
def reqIsGemini (r : HttpRequest) : Bool :=
  geminiEndpointBase.data.isPrefixOf r.url.data

/-- Does a request target the OpenAI endpoint? -/
def reqIsOpenai (r : HttpRequest) : Bool :=
  r.url == openaiEndpoint

/-! ## Provider-selection lemmas -/

/-- With a truthy Gemini credential, `call_ai` issues exactly the Gemini
request. -/
lemma call_ai_gemini_requests (env : String → Option String)
    (http : HttpRequest → HttpResponse) (p : String)
    (hg : optTruthy (env GEMINI_API_KEY_SECRET) = true) :
    (call_ai env http p).2 =
      [⟨geminiEndpointBase ++ "?key=" ++ (env GEMINI_API_KEY_SECRET).getD "",
        none, geminiPayload p⟩] := by
  simp [call_ai, hg]

/-- With a falsy Gemini credential and a truthy OpenAI credential,
`call_ai` issues exactly the OpenAI request. -/
lemma call_ai_openai_requests (env : String → Option String)
    (http : HttpRequest → HttpResponse) (p : String)
    (hg : optTruthy (env GEMINI_API_KEY_SECRET) = false)
    (ho : optTruthy (env OPENAI_API_KEY_SECRET) = true) :
    (call_ai env http p).2 =
      [⟨openaiEndpoint, some ((env OPENAI_API_KEY_SECRET).getD ""), openaiPayload p⟩] := by
  simp [call_ai, hg, ho]

/-- With both credentials falsy, `call_ai` raises the configuration
error without issuing any request. -/
lemma call_ai_no_key (env : String → Option String)
    (http : HttpRequest → HttpResponse) (p : String)
    (hg : optTruthy (env GEMINI_API_KEY_SECRET) = false)
    (ho : optTruthy (env OPENAI_API_KEY_SECRET) = false) :
    call_ai env http p = (.error .configurationError, []) := by
  simp [call_ai, hg, ho]

/-- The Gemini request targets the Gemini endpoint. -/
lemma reqIsGemini_of_key (k : String) (b : Option String) (j : JValue) :
    reqIsGemini ⟨geminiEndpointBase ++ "?key=" ++ k, b, j⟩ = true := by
  simp only [reqIsGemini, List.isPrefixOf_iff_prefix]
  show geminiEndpointBase.data <+: (geminiEndpointBase ++ "?key=" ++ k).data
  rw [String.data_append, String.data_append, List.append_assoc]
  exact List.prefix_append _ _

/-- C1: for every process environment at most one provider is
contacted, and selection follows the priority rule: a truthy Gemini
credential selects the Gemini endpoint regardless of the OpenAI
credential; otherwise a truthy OpenAI credential selects the OpenAI
endpoint; with neither credential no request is issued at all. -/
theorem call_ai_single_provider_priority (env : String → Option String)
    (http : HttpRequest → HttpResponse) (p : String) :
    (call_ai env http p).2.length ≤ 1
    ∧ (optTruthy (env GEMINI_API_KEY_SECRET) = true →
        ∃ r, (call_ai env http p).2 = [r] ∧ reqIsGemini r = true)
    ∧ (optTruthy (env GEMINI_API_KEY_SECRET) = false →
        optTruthy (env OPENAI_API_KEY_SECRET) = true →
        ∃ r, (call_ai env http p).2 = [r] ∧ reqIsOpenai r = true)
    ∧ (optTruthy (env GEMINI_API_KEY_SECRET) = false →
        optTruthy (env OPENAI_API_KEY_SECRET) = false →
        (call_ai env http p).2 = []) := by
  refine ⟨?_, ?_, ?_, ?_⟩
  · by_cases hg : optTruthy (env GEMINI_API_KEY_SECRET)
    · rw [call_ai_gemini_requests env http p hg]; simp
    · by_cases ho : optTruthy (env OPENAI_API_KEY_SECRET)
      · rw [call_ai_openai_requests env http p (by simpa using hg) ho]; simp
      · rw [call_ai_no_key env http p (by simpa using hg) (by simpa using ho)]; simp
  · intro hg
    exact ⟨_, call_ai_gemini_requests env http p hg, reqIsGemini_of_key _ _ _⟩
  · intro hg ho
    refine ⟨_, call_ai_openai_requests env http p hg ho, ?_⟩
    simp [reqIsOpenai]
  · intro hg ho
    rw [call_ai_no_key env http p hg ho]

/-- Witness for C1: with both credentials set, the single request goes
to the Gemini endpoint. -/
theorem call_ai_single_provider_priority_witness :
    ∃ r, (call_ai (fun n => if n = "GEMINI_API_KEY" then some "g" else some "o")
        (fun _ => ⟨200, ""⟩) "p").2 = [r] ∧ reqIsGemini r = true :=
  (call_ai_single_provider_priority
    (fun n => if n = "GEMINI_API_KEY" then some "g" else some "o")
    (fun _ => ⟨200, ""⟩) "p").2.1 (by decide)

/-- C2: with neither credential set, `call_ai` fails with the
configuration error and the request list is empty (no HTTP request is
issued on this path). -/
theorem call_ai_no_key_configuration_error (env : String → Option String)
    (http : HttpRequest → HttpResponse) (p : String)
    (hg : optTruthy (env GEMINI_API_KEY_SECRET) = false)
    (ho : optTruthy (env OPENAI_API_KEY_SECRET) = false) :
    call_ai env http p = (.error .configurationError, []) :=
  call_ai_no_key env http p hg ho

/-- Witness for C2: the empty environment produces the configuration
error and no request. -/
theorem call_ai_no_key_configuration_error_witness :
    call_ai (fun _ => none) (fun _ => ⟨200, ""⟩) "p" = (.error .configurationError, []) :=
  call_ai_no_key_configuration_error (fun _ => none) (fun _ => ⟨200, ""⟩) "p"
    (by decide) (by decide)

/-- C8: a credential set to the empty string behaves exactly like an
absent credential: with the Gemini variable empty and the OpenAI
variable truthy the OpenAI endpoint is selected, and with both
variables empty the run fails with the no-key configuration error. -/
theorem empty_credential_like_absent (env : String → Option String)
    (http : HttpRequest → HttpResponse) (p : String)
    (hg : env GEMINI_API_KEY_SECRET = some "") :
    (optTruthy (env OPENAI_API_KEY_SECRET) = true →
      ∃ r, (call_ai env http p).2 = [r] ∧ reqIsOpenai r = true)
    ∧ (env OPENAI_API_KEY_SECRET = some "" →
      call_ai env http p = (.error .configurationError, [])) := by
  have hg2 : optTruthy (env GEMINI_API_KEY_SECRET) = false := by
    rw [hg]; rfl
  constructor
  · intro ho
    refine ⟨_, call_ai_openai_requests env http p hg2 ho, ?_⟩
    simp [reqIsOpenai]
  · intro ho
    exact call_ai_no_key env http p hg2 (by rw [ho]; rfl)

/-- Witness for C8: Gemini variable empty, OpenAI variable non-empty
selects the OpenAI endpoint. -/
theorem empty_credential_like_absent_witness :
    ∃ r, (call_ai (fun n => if n = "OPENAI_API_KEY" then some "k" else some "")
        (fun _ => ⟨200, ""⟩) "p").2 = [r] ∧ reqIsOpenai r = true :=
  (empty_credential_like_absent
    (fun n => if n = "OPENAI_API_KEY" then some "k" else some "")
    (fun _ => ⟨200, ""⟩) "p" (by decide)).1 (by decide)

/-! ## Error-path lemmas -/

/-- Whenever response processing fails with an error, the content it
produces for the output file is exactly the one-element error array for
that error. -/
lemma processResponse_error_written (text : String) (e : PyError)
    (h : (processResponse text).2 = .error e) :
    (processResponse text).1 = errorFileContent e := by
  unfold processResponse at h ⊢
  cases hl : loads (normalizeResponse text) with
  | none =>
    rw [hl] at h
    simp at h
    simp [← h]
  | some result =>
    rw [hl] at h
    cases result with
    | jobj kvs =>
      by_cases hf : jfalsy ((lookupLast kvs "keywords").getD (.jarr []))
      · simp [hf] at h ⊢
        simp [← h]
      · simp [hf] at h
    | jnull => simp at h ⊢; simp [← h]
    | jbool b => simp at h ⊢; simp [← h]
    | jint n => simp at h ⊢; simp [← h]
    | jfloat lex => simp at h ⊢; simp [← h]
    | jstr s => simp at h ⊢; simp [← h]
    | jarr xs => simp at h ⊢; simp [← h]

/-- C5: every error raised during a run is handled identically at the
top level: the output file is written with a keywords array containing
exactly the one descriptive error string for that error, and the same
error is re-raised to the caller (the outcome that carries `e` is the
re-raise). -/
theorem error_unified_handling (today : String) (env : String → Option String)
    (http : HttpRequest → HttpResponse) (e : PyError)
    (h : (pymain today env http).outcome = .error e) :
    (pymain today env http).written = writeFileContent (.jarr [.jstr (errLine e)]) := by
  unfold pymain at h ⊢
  cases hc : call_ai env http (buildPrompt today) with
  | mk res reqs =>
    rw [hc] at h
    cases res with
    | error e2 =>
      simp at h ⊢
      rw [show e2 = e from h]
      rfl
    | ok text =>
      simp at h ⊢
      exact processResponse_error_written text e h

/-- Witness for C5: with no credentials the run fails with the
configuration error, and the file holds exactly its message. -/
theorem error_unified_handling_witness :
    (pymain "t" (fun _ => none) (fun _ => ⟨200, ""⟩)).written =
      writeFileContent (.jarr [.jstr (errLine .configurationError)]) :=
  error_unified_handling "t" (fun _ => none) (fun _ => ⟨200, ""⟩)
    .configurationError (by rfl)

/-- C4: for every response text that parses to a JSON object, an absent
`keywords` field defaults to the empty sequence, and an absent or empty
`keywords` sequence makes the run fail with the validation error — an
empty keywords list is never written as a success. -/
theorem keywords_absent_or_empty_validation (text : String)
    (kvs : List (String × JValue))
    (h : loads (normalizeResponse text) = some (.jobj kvs)) :
    (lookupLast kvs "keywords" = none →
      processResponse text = (errorFileContent .validationError, .error .validationError))
    ∧ (lookupLast kvs "keywords" = some (.jarr []) →
      processResponse text = (errorFileContent .validationError, .error .validationError)) := by
  constructor <;> intro h2 <;> unfold processResponse <;> rw [h] <;>
    simp [h2, jfalsy]

/-- Witness for C4: the object without a `keywords` field fails with
the validation error. -/
theorem keywords_absent_or_empty_validation_witness :
    processResponse "\x7b\x7d" =
      (errorFileContent .validationError, .error .validationError) :=
  (keywords_absent_or_empty_validation "\x7b\x7d" [] (by rfl)).1 (by rfl)

/-- C10: whenever the parsed object holds a truthy `keywords` value of
any shape (in particular a non-list such as a non-empty string or a
number), validation passes and the run succeeds; and for every
float-free such value (strings, booleans, integers, nested containers
of them) the extracted value is written unchanged — re-serialized by
`json.dump` — as the `keywords` field of the output file, so the
success output is not guaranteed to be a sequence of strings.  The
truthiness hypothesis is exact for numbers (`jfalsy` decides
`float(lexeme) == 0.0` including underflow); the written-content
conclusion is scoped by `floatFree` because the textual `repr`
rendering of a non-zero float is the one piece of `json.dump` the
embedding does not model. -/
theorem truthy_keywords_written_verbatim (text : String)
    (kvs : List (String × JValue)) (v : JValue)
    (h1 : loads (normalizeResponse text) = some (.jobj kvs))
    (h2 : lookupLast kvs "keywords" = some v)
    (h3 : jfalsy v = false) :
    (processResponse text).2 = .ok ()
    ∧ (floatFree v = true →
        processResponse text = (writeFileContent v, .ok ())) := by
  have hrun : processResponse text = (writeFileContent v, .ok ()) := by
    unfold processResponse
    rw [h1]
    simp [h2, h3]
  exact ⟨by rw [hrun], fun _ => hrun⟩

/-- Witness for C10: a non-empty string under `keywords` is accepted
and written unchanged, and a truthy float (`1.5`) also passes
validation and succeeds. -/
theorem truthy_keywords_written_verbatim_witness :
    processResponse "\x7b\x22keywords\x22:\x22abc\x22\x7d" =
      (writeFileContent (.jstr "abc"), .ok ())
    ∧ (processResponse "\x7b\x22keywords\x22:1.5\x7d").2 = .ok () :=
  ⟨(truthy_keywords_written_verbatim "\x7b\x22keywords\x22:\x22abc\x22\x7d"
      [("keywords", .jstr "abc")] (.jstr "abc") (by rfl) (by rfl) (by rfl)).2 (by rfl),
   (truthy_keywords_written_verbatim "\x7b\x22keywords\x22:1.5\x7d"
      [("keywords", .jfloat ['1', '.', '5'])] (.jfloat ['1', '.', '5'])
      (by rfl) (by rfl) (by decide)).1⟩

/-! ## Fence handling -/

/-- The fenced example response from the specification:
`` ```json\n\x7b"keywords":["x"]\x7d\n``` ``. -/
def fenceExample : String := "```json\n\x7b\x22keywords\x22:[\x22x\x22]\x7d\n```"

/-- The same payload wrapped in a plain fence without the `json` tag. -/
def plainFenceExample : String := "```\n\x7b\x22keywords\x22:[\x22x\x22]\x7d\n```"

/-- Counterexample for C3: on the specification example itself, the text
handed to the JSON parser is not the exact-7/3 strip of the trimmed
text — the code trims whitespace again after the fixed-width slice. -/
theorem fence_strip_exact_counterexample :
    normalizeResponse fenceExample ≠ exactFenceStrip fenceExample := by decide

/-- C3 (amended): if the trimmed text starts with the fence marker, the
first 7 and last 3 characters of the trimmed text are removed and the
remainder is whitespace-trimmed once more before JSON parsing; the
example input normalizes to valid JSON and extraction yields the
one-element sequence `["x"]`. -/
theorem fence_strip_fixed_width (t : String)
    (h : startsWithFence (pyStrip t) = true) :
    normalizeResponse t = pyStrip (((pyStrip t).drop 7).dropRight 3)
    ∧ processResponse fenceExample = (writeFileContent (.jarr [.jstr "x"]), .ok ()) := by
  constructor
  · unfold normalizeResponse
    simp [h]
  · rfl

/-- Witness for C3 (amended): the example input is fenced and its
normalization is the re-trimmed fixed-width strip. -/
theorem fence_strip_fixed_width_witness :
    normalizeResponse fenceExample =
      pyStrip (((pyStrip fenceExample).drop 7).dropRight 3) :=
  (fence_strip_fixed_width fenceExample (by decide)).1

/-- C9: fence stripping applies only when the trimmed text starts with
the exact 7-character `` ```json `` prefix; any other text — in
particular a plain `` ``` `` fence — reaches the JSON parser
unmodified, so fenced JSON without the tag fails with the parse
error. -/
theorem fence_requires_json_tag (t : String)
    (h : startsWithFence (pyStrip t) = false) :
    normalizeResponse t = t
    ∧ processResponse plainFenceExample =
        (errorFileContent .parseError, .error .parseError) := by
  constructor
  · unfold normalizeResponse
    simp [h]
  · rfl

/-- Witness for C9: the plain-fenced example is itself left unmodified. -/
theorem fence_requires_json_tag_witness :
    normalizeResponse plainFenceExample = plainFenceExample :=
  (fence_requires_json_tag plainFenceExample (by decide)).1

/-! ## Output-file shape -/

/-- Response processing always produces the serialization of some
`keywords` value (the extracted keywords on success, the one-element
error array on failure). -/
lemma processResponse_written_shape (text : String) :
    ∃ v : JValue, (processResponse text).1 = writeFileContent v := by
  unfold processResponse
  cases loads (normalizeResponse text) with
  | none => exact ⟨_, rfl⟩
  | some result =>
    cases result with
    | jobj kvs =>
      by_cases hf : jfalsy ((lookupLast kvs "keywords").getD (.jarr []))
      · exact ⟨_, by simp [hf]; rfl⟩
      · exact ⟨(lookupLast kvs "keywords").getD (.jarr []), by simp [hf]⟩
    | jnull => exact ⟨_, rfl⟩
    | jbool b => exact ⟨_, rfl⟩
    | jint n => exact ⟨_, rfl⟩
    | jfloat lex => exact ⟨_, rfl⟩
    | jstr s => exact ⟨_, rfl⟩
    | jarr xs => exact ⟨_, rfl⟩

/-- C7: every run writes the serialization of `\x7b"keywords": ...\x7d`
produced by the embedded `json.dump(..., ensure_ascii=False, indent=2)`
— on the success path and on the failure path alike; the serializer
leaves every printable and every non-ASCII character unescaped, and the
concrete output shows the 2-space indentation with a non-ASCII keyword
preserved literally. -/
theorem output_serialization_shape (today : String) (env : String → Option String)
    (http : HttpRequest → HttpResponse) :
    (∃ v : JValue, (pymain today env http).written = writeFileContent v)
    ∧ (∀ c : Char, 0x20 ≤ c.toNat → c ≠ '\x22' → c ≠ '\\' → escChar c = [c])
    ∧ writeFileContent (.jarr [.jstr "한글", .jstr "b"]) =
        "\x7b\n  \x22keywords\x22: [\n    \x22한글\x22,\n    \x22b\x22\n  ]\n\x7d" := by
  refine ⟨?_, ?_, by rfl⟩
  · unfold pymain
    cases call_ai env http (buildPrompt today) with
    | mk res reqs =>
      cases res with
      | error e => exact ⟨_, rfl⟩
      | ok text => exact processResponse_written_shape text
  · intro c h h2 h3
    have hb : c ≠ '\x08' := by rintro rfl; exact absurd h (by decide)
    have hf : c ≠ '\x0c' := by rintro rfl; exact absurd h (by decide)
    have hn : c ≠ '\n' := by rintro rfl; exact absurd h (by decide)
    have hr : c ≠ '\r' := by rintro rfl; exact absurd h (by decide)
    have ht : c ≠ '\t' := by rintro rfl; exact absurd h (by decide)
    have h20 : ¬ (c.toNat < 0x20) := by omega
    simp [escChar, h2, h3, hb, hf, hn, hr, ht, h20]

/-- Witness for C7: a non-ASCII character is emitted literally, and the
concrete file content shows the 2-space indentation. -/
theorem output_serialization_shape_witness :
    escChar '한' = ['한'] ∧
    writeFileContent (.jarr [.jstr "한글", .jstr "b"]) =
      "\x7b\n  \x22keywords\x22: [\n    \x22한글\x22,\n    \x22b\x22\n  ]\n\x7d" :=
  ⟨(output_serialization_shape "t" (fun _ => none) (fun _ => ⟨200, ""⟩)).2.1 '한'
      (by decide) (by decide) (by decide),
   (output_serialization_shape "t" (fun _ => none) (fun _ => ⟨200, ""⟩)).2.2⟩

/-! ## Serializer/parser inversion (round-trip) -/

lemma charOfNat_toNat (c : Char) : Char.ofNat c.toNat = c := by
  have hv : Nat.isValidChar c.toNat := c.valid
  unfold Char.ofNat
  rw [dif_pos hv]
  apply Char.eq_of_val_eq
  apply UInt32.eq_of_toBitVec_eq
  apply BitVec.eq_of_toNat_eq
  simp [Char.ofNatAux, Char.toNat]
  rfl

lemma hexVal_hexDigitChar (n : Nat) (h : n < 16) :
    hexVal (hexDigitChar n) = some n := by
  interval_cases n <;> rfl

lemma skipWs_replicate_space (n : Nat) (l : List Char) :
    skipWs (List.replicate n ' ' ++ l) = skipWs l := by
  induction n with
  | zero => rfl
  | succ m ih => simpa [skipWs, jsonWs] using ih

lemma skipWs_indent (d : Nat) (l : List Char) :
    skipWs (indentChars d ++ l) = skipWs l :=
  skipWs_replicate_space (2 * d) l

lemma skipWs_newline (l : List Char) : skipWs ('\n' :: l) = skipWs l := by
  simp [skipWs, jsonWs]

/-- Inverting the string escaper: parsing an escaped string body
recovers the original characters. -/
lemma parseStrBody_escChars (s : List Char) (rest : List Char) :
    parseStrBody (escChars s ++ '\x22' :: rest) = some (s, rest) := by
  induction s with
  | nil =>
    rw [escChars, List.nil_append, parseStrBody.eq_def]
    simp
  | cons c cs ih =>
    rw [escChars, List.append_assoc]
    by_cases h1 : c = '\\'
    · subst h1
      rw [show escChar '\\' = ['\\', '\\'] from rfl, parseStrBody.eq_def]
      simp [escDecode, ih]
    · by_cases h2 : c = '\x22'
      · subst h2
        rw [show escChar '\x22' = ['\\', '\x22'] from rfl, parseStrBody.eq_def]
        simp [escDecode, ih]
      · by_cases h3 : c = '\x08'
        · subst h3
          rw [show escChar '\x08' = ['\\', 'b'] from rfl, parseStrBody.eq_def]
          simp [escDecode, ih]
        · by_cases h4 : c = '\x0c'
          · subst h4
            rw [show escChar '\x0c' = ['\\', 'f'] from rfl, parseStrBody.eq_def]
            simp [escDecode, ih]
          · by_cases h5 : c = '\n'
            · subst h5
              rw [show escChar '\n' = ['\\', 'n'] from rfl, parseStrBody.eq_def]
              simp [escDecode, ih]
            · by_cases h6 : c = '\r'
              · subst h6
                rw [show escChar '\r' = ['\\', 'r'] from rfl, parseStrBody.eq_def]
                simp [escDecode, ih]
              · by_cases h7 : c = '\t'
                · subst h7
                  rw [show escChar '\t' = ['\\', 't'] from rfl, parseStrBody.eq_def]
                  simp [escDecode, ih]
                · by_cases h8 : c.toNat < 0x20
                  · rw [show escChar c = ['\\', 'u', '0', '0',
                        hexDigitChar (c.toNat / 16), hexDigitChar (c.toNat % 16)] by
                      simp [escChar, h1, h2, h3, h4, h5, h6, h7, h8]]
                    have e1 : hexVal (hexDigitChar (c.toNat / 16)) = some (c.toNat / 16) :=
                      hexVal_hexDigitChar _ (by omega)
                    have e2 : hexVal (hexDigitChar (c.toNat % 16)) = some (c.toNat % 16) :=
                      hexVal_hexDigitChar _ (by omega)
                    have hn : ((0 * 16 + 0) * 16 + c.toNat / 16) * 16 + c.toNat % 16
                        = c.toNat := by omega
                    have hn2 : c.toNat / 16 * 16 + c.toNat % 16 = c.toNat := by omega
                    rw [parseStrBody.eq_def]
                    simp only [List.cons_append]
                    simp [e1, e2, hn, hn2, ih, charOfNat_toNat,
                      show hexVal '0' = some 0 from rfl, show ¬ (0xd800 ≤ c.toNat) by omega]
                  · rw [show escChar c = [c] by
                      simp [escChar, h1, h2, h3, h4, h5, h6, h7, h8]]
                    rw [List.singleton_append, parseStrBody.eq_def]
                    simp [h1, h2, h8, ih]

lemma skipWs_quote (l : List Char) : skipWs ('\x22' :: l) = '\x22' :: l := by
  simp [skipWs, jsonWs]

lemma parseValue_dumpStr (fuel : Nat) (s : String) (rest : List Char) :
    parseValue (fuel + 1) (dumpStr s ++ rest) = some (.jstr s, rest) := by
  rw [dumpStr]
  rw [show ('\x22' :: (escChars s.data ++ ['\x22'])) ++ rest
      = '\x22' :: (escChars s.data ++ ('\x22' :: rest)) by simp]
  rw [parseValue.eq_def]
  simp [parseStrBody_escChars]

lemma parseArrItems_strings (ks : List String) :
    ∀ (k : String) (d fuel : Nat) (rest : List Char),
    2 * ks.length + 2 ≤ fuel →
    parseArrItems fuel
      (dumpStr k ++ (dumpArrRest d (ks.map .jstr) ++ '\n' :: (indentChars d ++ ']' :: rest)))
      = some (.jstr k :: ks.map .jstr, rest) := by
  induction ks with
  | nil =>
    intro k d fuel rest hf
    obtain ⟨f, rfl⟩ : ∃ f, fuel = f + 1 := ⟨fuel - 1, by omega⟩
    obtain ⟨f2, rfl⟩ : ∃ f2, f = f2 + 1 := ⟨f - 1, by omega⟩
    rw [parseArrItems.eq_def]
    simp only []
    rw [show dumpArrRest d (List.map JValue.jstr []) = [] from rfl]
    rw [List.nil_append, parseValue_dumpStr]
    simp only []
    rw [skipWs_newline, skipWs_indent]
    simp [skipWs, jsonWs]
  | cons k2 ks2 ih =>
    intro k d fuel rest hf
    obtain ⟨f, rfl⟩ : ∃ f, fuel = f + 1 := ⟨fuel - 1, by omega⟩
    obtain ⟨f2, rfl⟩ : ∃ f2, f = f2 + 1 := ⟨f - 1, by omega⟩
    rw [parseArrItems.eq_def]
    simp only []
    rw [show dumpArrRest d (List.map JValue.jstr (k2 :: ks2))
        = ',' :: '\n' :: (indentChars (d + 1) ++ dumpStr k2
            ++ dumpArrRest d (List.map JValue.jstr ks2)) by
      rw [List.map_cons, dumpArrRest]
      rfl]
    rw [parseValue_dumpStr]
    simp only []
    rw [show skipWs (',' :: '\n' :: (indentChars (d + 1) ++ dumpStr k2
          ++ dumpArrRest d (List.map JValue.jstr ks2))
          ++ '\n' :: (indentChars d ++ ']' :: rest))
        = ',' :: ('\n' :: (indentChars (d + 1) ++ dumpStr k2
            ++ dumpArrRest d (List.map JValue.jstr ks2))
            ++ '\n' :: (indentChars d ++ ']' :: rest)) by
      simp [skipWs, jsonWs]]
    simp only []
    rw [show skipWs ('\n' :: (indentChars (d + 1) ++ dumpStr k2
          ++ dumpArrRest d (List.map JValue.jstr ks2))
          ++ '\n' :: (indentChars d ++ ']' :: rest))
        = dumpStr k2 ++ (dumpArrRest d (List.map JValue.jstr ks2)
            ++ '\n' :: (indentChars d ++ ']' :: rest)) by
      rw [show ('\n' :: (indentChars (d + 1) ++ dumpStr k2
            ++ dumpArrRest d (List.map JValue.jstr ks2))
            ++ '\n' :: (indentChars d ++ ']' :: rest))
          = '\n' :: (indentChars (d + 1) ++ (dumpStr k2
              ++ (dumpArrRest d (List.map JValue.jstr ks2)
                  ++ '\n' :: (indentChars d ++ ']' :: rest)))) by simp]
      rw [skipWs_newline, skipWs_indent]
      rw [dumpStr, List.cons_append, skipWs_quote]]
    rw [ih k2 d (f2 + 1) rest (by simp at hf ⊢; omega)]
    simp

lemma skipWs_space (l : List Char) : skipWs (' ' :: l) = skipWs l := by
  simp [skipWs, jsonWs]

lemma skipWs_not (c : Char) (h : jsonWs c = false) (l : List Char) :
    skipWs (c :: l) = c :: l := by
  simp [skipWs, h]

lemma parseValue_dumpArr (ks : List String) (d : Nat) (rest : List Char) :
    ∀ fuel : Nat, 2 * ks.length + 3 ≤ fuel →
    parseValue fuel (dumpVal d (.jarr (ks.map .jstr)) ++ rest)
      = some (.jarr (ks.map .jstr), rest) := by
  intro fuel hf
  obtain ⟨f, rfl⟩ : ∃ f, fuel = f + 1 := ⟨fuel - 1, by omega⟩
  cases ks with
  | nil =>
    rw [show dumpVal d (.jarr (List.map JValue.jstr [])) = ['[', ']'] from rfl]
    rw [show ((['[', ']'] : List Char) ++ rest) = '[' :: ']' :: rest from rfl]
    rw [parseValue.eq_def]
    simp only []
    rw [if_neg (by decide), if_pos trivial]
    rw [skipWs_not ']' (by decide)]
    rfl
  | cons k0 ks0 =>
    have harr : dumpVal d (.jarr (List.map JValue.jstr (k0 :: ks0))) ++ rest
        = '[' :: '\n' :: (indentChars (d + 1) ++ (dumpStr k0
            ++ (dumpArrRest d (List.map JValue.jstr ks0)
                ++ '\n' :: (indentChars d ++ ']' :: rest)))) := by
      rw [List.map_cons, dumpVal]
      rw [show dumpVal (d + 1) (JValue.jstr k0) = dumpStr k0 from rfl]
      simp
    rw [harr, parseValue.eq_def]
    simp only []
    rw [if_neg (by decide), if_pos trivial]
    rw [show skipWs ('\n' :: (indentChars (d + 1) ++ (dumpStr k0
          ++ (dumpArrRest d (List.map JValue.jstr ks0)
              ++ '\n' :: (indentChars d ++ ']' :: rest)))))
        = dumpStr k0 ++ (dumpArrRest d (List.map JValue.jstr ks0)
            ++ '\n' :: (indentChars d ++ ']' :: rest)) by
      rw [skipWs_newline, skipWs_indent, dumpStr, List.cons_append, skipWs_quote]]
    split
    · next r heq =>
      rw [dumpStr, List.cons_append] at heq
      simp at heq
    · rw [parseArrItems_strings ks0 k0 d f rest (by simp at hf ⊢; omega)]
      simp

lemma skipWs_dumpArr (ks : List String) (d : Nat) (rest : List Char) :
    skipWs (dumpVal d (.jarr (ks.map .jstr)) ++ rest)
      = dumpVal d (.jarr (ks.map .jstr)) ++ rest := by
  cases ks with
  | nil =>
    rw [show dumpVal d (.jarr (List.map JValue.jstr [])) = ['[', ']'] from rfl]
    rw [show ((['[', ']'] : List Char) ++ rest) = '[' :: ']' :: rest from rfl]
    exact skipWs_not '[' (by decide) _
  | cons k0 ks0 =>
    rw [List.map_cons, dumpVal, List.cons_append, List.cons_append]
    exact skipWs_not '[' (by decide) _

lemma parseValue_doc (ks : List String) :
    ∀ fuel : Nat, 2 * ks.length + 6 ≤ fuel →
    parseValue fuel (dumpVal 0 (.jobj [("keywords", .jarr (ks.map .jstr))]))
      = some (.jobj [("keywords", .jarr (ks.map .jstr))], []) := by
  intro fuel hf
  obtain ⟨f, rfl⟩ : ∃ f, fuel = f + 1 := ⟨fuel - 1, by omega⟩
  obtain ⟨f2, rfl⟩ : ∃ f2, f = f2 + 1 := ⟨f - 1, by omega⟩
  obtain ⟨f3, rfl⟩ : ∃ f3, f2 = f3 + 1 := ⟨f2 - 1, by omega⟩
  have hdoc : dumpVal 0 (.jobj [("keywords", .jarr (ks.map .jstr))])
      = '\x7b' :: '\n' :: ' ' :: ' ' :: (dumpStr "keywords"
          ++ ':' :: ' ' :: (dumpVal 1 (.jarr (ks.map .jstr)) ++ ['\n', '\x7d'])) := by
    rw [dumpVal]
    simp [indentChars, dumpObjRest, List.replicate]
  rw [hdoc, parseValue.eq_def]
  simp only []
  rw [if_pos trivial]
  have hskip : skipWs ('\n' :: ' ' :: ' ' :: (dumpStr "keywords"
        ++ ':' :: ' ' :: (dumpVal 1 (.jarr (ks.map .jstr)) ++ ['\n', '\x7d'])))
      = '\x22' :: (escChars "keywords".data
          ++ '\x22' :: ':' :: ' ' :: (dumpVal 1 (.jarr (ks.map .jstr)) ++ ['\n', '\x7d'])) := by
    rw [skipWs_newline, skipWs_space, skipWs_space, dumpStr, List.cons_append, skipWs_quote]
    simp
  rw [hskip]
  split
  · next r heq => simp at heq
  rw [parseObjItems.eq_def]
  simp only []
  rw [parseStrBody_escChars]
  simp only []
  rw [skipWs_not ':' (by decide)]
  simp only []
  rw [skipWs_space, skipWs_dumpArr]
  rw [parseValue_dumpArr ks 1 ['\n', '\x7d'] (f3 + 1) (by omega)]
  simp only []
  rw [show skipWs ['\n', '\x7d'] = ['\x7d'] by
    rw [show (['\n', '\x7d'] : List Char) = '\n' :: ['\x7d'] from rfl, skipWs_newline,
      skipWs_not '\x7d' (by decide)]]
  simp only []
  simp [pyDict, dictInsert]

lemma dumpArrRest_length (d : Nat) (xs : List JValue) :
    xs.length ≤ (dumpArrRest d xs).length := by
  induction xs with
  | nil => simp [dumpArrRest]
  | cons x xs ih =>
    rw [dumpArrRest]
    simp only [List.length_cons, List.length_append]
    omega

lemma doc_length (ks : List String) :
    ks.length + 2 ≤ (dumpVal 0 (.jobj [("keywords", .jarr (ks.map .jstr))])).length := by
  rw [dumpVal]
  cases ks with
  | nil => simp [dumpVal, dumpStr, dumpObjRest, indentChars]
  | cons k0 ks0 =>
    rw [List.map_cons, dumpVal]
    have h1 := dumpArrRest_length (0 + 1) (List.map JValue.jstr ks0)
    simp only [List.length_cons, List.length_append, List.length_map] at h1 ⊢
    omega

/-- C6: serializing any keyword sequence the way the success path does
and parsing the file back recovers the identical ordered sequence under
the `keywords` field. -/
theorem roundtrip_keywords (ks : List String) :
    loads (writeFileContent (.jarr (ks.map .jstr)))
      = some (.jobj [("keywords", .jarr (ks.map .jstr))])
    ∧ jfield (.jobj [("keywords", .jarr (ks.map .jstr))]) "keywords"
      = some (.jarr (ks.map .jstr)) := by
  constructor
  · have hskipdoc : skipWs (dumpVal 0 (.jobj [("keywords", .jarr (ks.map .jstr))]))
        = dumpVal 0 (.jobj [("keywords", .jarr (ks.map .jstr))]) := by
      rw [dumpVal]
      exact skipWs_not '\x7b' (by decide) _
    unfold loads writeFileContent
    rw [show (String.mk (dumpVal 0 (.jobj [("keywords", .jarr (ks.map .jstr))]))).data
        = dumpVal 0 (.jobj [("keywords", .jarr (ks.map .jstr))]) from rfl]
    rw [hskipdoc]
    dsimp only
    rw [parseValue_doc ks _ (by have := doc_length ks; omega)]
    simp [skipWs]
  · simp [jfield, lookupLast]
